import Mathlib

/-!
Shallow embedding of the Songs service and controller of the
NestJS-Fundamentals repository.

Source files:
* `src/Chapter 2/fundamentals/src/songs/songs.service.ts` — `SongsService`,
  an in-memory store backed by a private array `songs : Song[]`:
  - `create(song)` does `this.songs.push(song); return this.songs;`
    (note: it returns the internal array itself, a live reference);
  - `findAll()` does `return [...this.songs];` (a shallow copy).
* `src/unnamed/part_000` — `SongsController`, wired to the service:
  - `GET /songs` → `findAll()` delegates to the service;
  - `POST /songs` → `addASong()` ignores the request body and calls
    `create` with the hardcoded record `{title: 'Ulazi ', artist: 'Amaroto '}`;
  - `GET /songs/:id`, `PUT /songs/:id`, `DELETE /songs/:id` are stubs
    returning fixed string literals.

Because the claims are about aliasing (live reference vs copy), arrays are
modelled through an explicit heap: a `Ref` is an index into a heap of
arrays, JavaScript array mutation is a heap update, and the spread copy
`[...xs]` is a fresh allocation.
-/

/-- A song record: `title` and `artist` plus the open index signature
`[key: string]: any`, modelled as an association list of extra fields. -/
structure Song where
  title : String
  artist : String
  extra : List (String × String) := []
deriving DecidableEq, Repr

/-- A JavaScript array reference: an index into the heap. -/
abbrev Ref := Nat

/-- The heap of allocated song arrays; position `r` holds the contents of
the array that reference `r` points to. -/
structure Heap where
  arrays : List (List Song)
deriving DecidableEq, Repr

namespace Heap

/-- Dereference: the contents of the array behind `r` (out-of-range reads
give `[]`; well-formed states never read out of range). -/
def read (h : Heap) (r : Ref) : List Song :=
  h.arrays.getD r []

/-- Mutate the array behind `r` in place (JavaScript `push`, index
assignment, `splice`, ... all amount to replacing the contents). -/
def write (h : Heap) (r : Ref) (l : List Song) : Heap :=
  ⟨h.arrays.set r l⟩

/-- Allocate a fresh array with contents `l`, returning its reference. -/
def alloc (h : Heap) (l : List Song) : Ref × Heap :=
  (h.arrays.length, ⟨h.arrays ++ [l]⟩)

/-- Reference `r` is a live allocation of heap `h`. -/
def valid (h : Heap) (r : Ref) : Prop :=
  r < h.arrays.length

end Heap

/-- The `SongsService` instance: its single field is the reference held by
`private readonly songs: Song[]`. -/
structure SongsService where
  songs : Ref
deriving DecidableEq, Repr

/-- A program state: the heap together with the service instance. -/
structure AppState where
  heap : Heap
  svc : SongsService
deriving DecidableEq, Repr

/-- The stored collection: what the service's internal array holds. -/
def storeContents (σ : AppState) : List Song :=
  σ.heap.read σ.svc.songs

/-- Well-formed state: the service's array reference is a live allocation. -/
def WF (σ : AppState) : Prop :=
  σ.heap.valid σ.svc.songs

instance (σ : AppState) : Decidable (WF σ) := by
  unfold WF Heap.valid; infer_instance

/-- The state right after `new SongsService()`: the field initializer
`songs: Song[] = []` allocates one empty array on an empty heap. -/
def freshState : AppState :=
  let p := Heap.alloc ⟨[]⟩ []
  ⟨p.2, ⟨p.1⟩⟩

namespace SongsService

/-- `create(song) { this.songs.push(song); return this.songs; }` —
pushes onto the internal array and returns the internal reference itself. -/
def create (σ : AppState) (song : Song) : Ref × AppState :=
  let r := σ.svc.songs
  let h := σ.heap.write r (σ.heap.read r ++ [song])
  (r, ⟨h, σ.svc⟩)

/-- `findAll() { return [...this.songs]; }` — allocates a fresh array
holding a shallow copy of the internal contents and returns its reference. -/
def findAll (σ : AppState) : Ref × AppState :=
  let p := σ.heap.alloc (σ.heap.read σ.svc.songs)
  (p.1, ⟨p.2, σ.svc⟩)

end SongsService

/-- The list a caller of `findAll` observes: the contents of the returned
reference in the resulting state. -/
def findAllResult (σ : AppState) : List Song :=
  let p := SongsService.findAll σ
  p.2.heap.read p.1

namespace SongsController

/-- The hardcoded record `{title: 'Ulazi ', artist: 'Amaroto '}` passed to
`create` by `addASong` (trailing spaces as in the source). -/
def hardcodedSong : Song :=
  { title := "Ulazi ", artist := "Amaroto " }

/-- `@Get() findAll() { return this.songsService.findAll(); }` -/
def findAll (σ : AppState) : Ref × AppState :=
  SongsService.findAll σ

/-- `@Post() addASong(): Song[]` — the handler declares no `@Body()`
parameter, so the request body (modelled as an arbitrary string, if any)
is ignored; it calls `create` with the hardcoded record. -/
def addASong (body : Option String) (σ : AppState) : Ref × AppState :=
  SongsService.create σ hardcodedSong

/-- `@Get(':id') findASong() { return 'Song Received!!'; }` — the route
carries an `:id` segment but the handler ignores it and the state. -/
def findASong (id : String) (σ : AppState) : String × AppState :=
  ("Song Received!!", σ)

/-- `@Put(':id') changeASong() { return 'Song updated succesfully!!'; }` -/
def changeASong (id : String) (σ : AppState) : String × AppState :=
  ("Song updated succesfully!!", σ)

/-- `@Delete(':id') removeASong() { return 'Song removed succesfully!!'; }` -/
def removeASong (id : String) (σ : AppState) : String × AppState :=
  ("Song removed succesfully!!", σ)

end SongsController

/-- The list a client of `GET /songs` observes: the contents of the
reference returned by the controller's `findAll` handler. -/
def getSongsResponse (σ : AppState) : List Song :=
  let p := SongsController.findAll σ
  p.2.heap.read p.1

/-- A request to any of the five routes of the controller. -/
inductive Route
  | getAll : Route
  | post (body : Option String) : Route
  | getOne (id : String) : Route
  | put (id : String) : Route
  | delete (id : String) : Route
deriving DecidableEq, Repr

/-- Dispatch a request to its handler and keep only the resulting state. -/
def stepRoute (σ : AppState) : Route → AppState
  | Route.getAll => (SongsController.findAll σ).2
  | Route.post body => (SongsController.addASong body σ).2
  | Route.getOne id => (SongsController.findASong id σ).2
  | Route.put id => (SongsController.changeASong id σ).2
  | Route.delete id => (SongsController.removeASong id σ).2

/-- Fold a list of `create` calls over a state. -/
def createMany (σ : AppState) (songs : List Song) : AppState :=
  songs.foldl (fun s song => (SongsService.create s song).2) σ

-- Basic heap lemmas --

theorem Heap.read_alloc_self (h : Heap) (l : List Song) :
    ((h.alloc l).2).read (h.alloc l).1 = l := by
  simp [Heap.alloc, Heap.read, List.getD]

theorem Heap.read_alloc_old (h : Heap) (l : List Song) (r : Ref)
    (hr : h.valid r) : ((h.alloc l).2).read r = h.read r := by
  unfold Heap.valid at hr
  simp [Heap.alloc, Heap.read, List.getD, List.getElem?_append_left hr]

theorem Heap.read_write_self (h : Heap) (r : Ref) (l : List Song)
    (hr : h.valid r) : (h.write r l).read r = l := by
  unfold Heap.valid at hr
  simp [Heap.write, Heap.read, List.getD, List.getElem?_set_self hr]

theorem Heap.read_write_ne (h : Heap) (r s : Ref) (l : List Song)
    (hne : r ≠ s) : (h.write r l).read s = h.read s := by
  simp [Heap.write, Heap.read, List.getD, List.getElem?_set_ne, hne]

theorem Heap.valid_write (h : Heap) (r s : Ref) (l : List Song) :
    (h.write r l).valid s ↔ h.valid s := by
  simp [Heap.write, Heap.valid]

theorem findAllResult_eq (σ : AppState) :
    findAllResult σ = storeContents σ := by
  simp [findAllResult, SongsService.findAll, storeContents, Heap.read_alloc_self]

theorem storeContents_create (σ : AppState) (song : Song) (hwf : WF σ) :
    storeContents (SongsService.create σ song).2 = storeContents σ ++ [song] := by
  simp [SongsService.create, storeContents, Heap.read_write_self _ _ _ hwf]

theorem WF_create (σ : AppState) (song : Song) :
    WF (SongsService.create σ song).2 ↔ WF σ := by
  simp [SongsService.create, WF, Heap.valid_write]

theorem storeContents_createMany (σ : AppState) (songs : List Song)
    (hwf : WF σ) : storeContents (createMany σ songs) = storeContents σ ++ songs := by
  induction songs generalizing σ with
  | nil => simp [createMany]
  | cons s rest ih =>
      calc storeContents (createMany σ (s :: rest))
          = storeContents (createMany (SongsService.create σ s).2 rest) := rfl
        _ = storeContents (SongsService.create σ s).2 ++ rest :=
            ih (SongsService.create σ s).2 ((WF_create σ s).mpr hwf)
        _ = (storeContents σ ++ [s]) ++ rest := by
            rw [storeContents_create σ s hwf]
        _ = storeContents σ ++ (s :: rest) := by simp

-- Concrete songs used in counterexamples and witnesses --

def songA : Song := { title := "One", artist := "A" }

def songB : Song := { title := "Two", artist := "B" }

/-- A record with empty `title`/`artist` and an extra field, exercising the
permissive `[key: string]: any` shape of the `Song` interface. -/
def oddSong : Song := { title := "", artist := "", extra := [("year", "2024")] }

-- Claim theorems --

/-- C1 (counterexample): `create` is NOT snapshot-returning. Starting from a
fresh store, `create songA` returns the internal array itself; appending
`songB` through the returned reference changes both the store's internal
collection and what a subsequent `findAll()` returns. -/
theorem create_not_snapshot_cex :
    (findAllResult
        ⟨((SongsService.create freshState songA).2).heap.write
            (SongsService.create freshState songA).1
            (((SongsService.create freshState songA).2).heap.read
                (SongsService.create freshState songA).1 ++ [songB]),
          ((SongsService.create freshState songA).2).svc⟩
      ≠ findAllResult (SongsService.create freshState songA).2) ∧
    (storeContents
        ⟨((SongsService.create freshState songA).2).heap.write
            (SongsService.create freshState songA).1
            (((SongsService.create freshState songA).2).heap.read
                (SongsService.create freshState songA).1 ++ [songB]),
          ((SongsService.create freshState songA).2).svc⟩
      ≠ storeContents (SongsService.create freshState songA).2) := by
  decide

/-- C1 (amended): `create(song)` returns a live reference into internal
storage — the very reference held by the service — so overwriting the
contents of the returned array with any `l'` makes a subsequent `findAll()`
return `l'`. -/
theorem create_returns_live_ref (σ : AppState) (song : Song) (hwf : WF σ)
    (l' : List Song) :
    (SongsService.create σ song).1 = σ.svc.songs ∧
    findAllResult
        ⟨((SongsService.create σ song).2).heap.write
            (SongsService.create σ song).1 l',
          ((SongsService.create σ song).2).svc⟩ = l' := by
  refine ⟨rfl, ?_⟩
  rw [findAllResult_eq]
  show (((SongsService.create σ song).2).heap.write σ.svc.songs l').read
      σ.svc.songs = l'
  exact Heap.read_write_self _ _ _
    ((Heap.valid_write σ.heap σ.svc.songs σ.svc.songs _).mpr hwf)

/-- Witness for `create_returns_live_ref` at a concrete state. -/
theorem create_returns_live_ref_witness :
    WF freshState ∧
      ((SongsService.create freshState songA).1 = freshState.svc.songs ∧
        findAllResult
            ⟨((SongsService.create freshState songA).2).heap.write
                (SongsService.create freshState songA).1 [songB],
              ((SongsService.create freshState songA).2).svc⟩ = [songB]) :=
  ⟨by decide, create_returns_live_ref freshState songA (by decide) [songB]⟩

/-- C2: insertion order is preserved — for every sequence of `create` calls
on a fresh store, a subsequent `findAll()` returns exactly the created
songs in creation order. -/
theorem create_preserves_insertion_order (songs : List Song) :
    findAllResult (createMany freshState songs) = songs := by
  rw [findAllResult_eq, storeContents_createMany freshState songs (by decide)]
  rfl

/-- C3: `GET /songs` on a fresh (empty) store yields `[]`; one `POST /songs`
ignores the request body, creates the hardcoded record
`{title: "Ulazi ", artist: "Amaroto "}` and returns the full updated list,
and a subsequent `GET /songs` yields exactly that one-element list. -/
theorem get_post_get_roundtrip (body : Option String) :
    getSongsResponse freshState = [] ∧
    ((SongsController.addASong body freshState).2.heap.read
        (SongsController.addASong body freshState).1
      = [SongsController.hardcodedSong]) ∧
    getSongsResponse (SongsController.addASong body freshState).2
      = [SongsController.hardcodedSong] :=
  ⟨rfl, rfl, rfl⟩

/-- C4: the three stub handlers return their fixed literal strings for
every id (numeric or not) and every store state. -/
theorem stub_handlers_fixed_strings (id : String) (σ : AppState) :
    (SongsController.findASong id σ).1 = "Song Received!!" ∧
    (SongsController.changeASong id σ).1 = "Song updated succesfully!!" ∧
    (SongsController.removeASong id σ).1 = "Song removed succesfully!!" :=
  ⟨rfl, rfl, rfl⟩

/-- C5: `findAll()` has copy-out semantics — the returned array is a fresh
allocation distinct from the internal container, and overwriting its
contents with any `l'` leaves what a subsequent `findAll()` returns
unchanged. -/
theorem findAll_copy_out (σ : AppState) (hwf : WF σ) (l' : List Song) :
    (SongsService.findAll σ).1 ≠ σ.svc.songs ∧
    findAllResult
        ⟨((SongsService.findAll σ).2).heap.write
            (SongsService.findAll σ).1 l',
          ((SongsService.findAll σ).2).svc⟩ = findAllResult σ := by
  have hlt : σ.svc.songs < σ.heap.arrays.length := hwf
  constructor
  · show σ.heap.arrays.length ≠ σ.svc.songs
    exact Nat.ne_of_gt hlt
  · rw [findAllResult_eq, findAllResult_eq]
    show (((SongsService.findAll σ).2).heap.write σ.heap.arrays.length l').read
        σ.svc.songs = storeContents σ
    rw [Heap.read_write_ne _ _ _ _ (Nat.ne_of_gt hlt)]
    exact Heap.read_alloc_old σ.heap _ _ hwf

/-- Witness for `findAll_copy_out` at a concrete state. -/
theorem findAll_copy_out_witness :
    WF freshState ∧
      ((SongsService.findAll freshState).1 ≠ freshState.svc.songs ∧
        findAllResult
            ⟨((SongsService.findAll freshState).2).heap.write
                (SongsService.findAll freshState).1 [songA],
              ((SongsService.findAll freshState).2).svc⟩
          = findAllResult freshState) :=
  ⟨by decide, findAll_copy_out freshState (by decide) [songA]⟩

/-- C6: `findAll()` on a fresh store (no prior `create` calls) returns the
empty sequence. -/
theorem findAll_fresh_empty : findAllResult freshState = [] := rfl

/-- C7: the get-one, update and delete route handlers neither consult nor
mutate the store — each returns the whole program state unchanged, so every
subsequent `findAll()` result is unchanged as well. -/
theorem stub_handlers_leave_store_unchanged (id : String) (σ : AppState) :
    (SongsController.findASong id σ).2 = σ ∧
    (SongsController.changeASong id σ).2 = σ ∧
    (SongsController.removeASong id σ).2 = σ :=
  ⟨rfl, rfl, rfl⟩

/-- C8: `create` never signals an error — it is a total operation with no
failure branch: for every well-formed state and every record (empty
strings and extra fields included), it appends the record and returns the
full updated collection. -/
theorem create_never_errors (σ : AppState) (song : Song) (hwf : WF σ) :
    storeContents (SongsService.create σ song).2 = storeContents σ ++ [song] ∧
    ((SongsService.create σ song).2).heap.read (SongsService.create σ song).1
      = storeContents σ ++ [song] := by
  have h := storeContents_create σ song hwf
  exact ⟨h, h⟩

/-- Witness for `create_never_errors` on a record with empty `title` and
`artist` and an extra field. -/
theorem create_never_errors_witness :
    WF freshState ∧
      (storeContents (SongsService.create freshState oddSong).2
          = storeContents freshState ++ [oddSong] ∧
        ((SongsService.create freshState oddSong).2).heap.read
            (SongsService.create freshState oddSong).1
          = storeContents freshState ++ [oddSong]) :=
  ⟨by decide, create_never_errors freshState oddSong (by decide)⟩

/-- C9: `findAll()` is a pure read — it leaves the stored collection
unchanged, and two consecutive `findAll()` calls with no intervening
`create` return equal sequences. -/
theorem findAll_pure_read (σ : AppState) (hwf : WF σ) :
    storeContents (SongsService.findAll σ).2 = storeContents σ ∧
    findAllResult (SongsService.findAll σ).2 = findAllResult σ := by
  have h1 : storeContents (SongsService.findAll σ).2 = storeContents σ :=
    Heap.read_alloc_old σ.heap _ _ hwf
  exact ⟨h1, by rw [findAllResult_eq, findAllResult_eq, h1]⟩

/-- Witness for `findAll_pure_read` at a concrete state. -/
theorem findAll_pure_read_witness :
    WF freshState ∧
      (storeContents (SongsService.findAll freshState).2
          = storeContents freshState ∧
        findAllResult (SongsService.findAll freshState).2
          = findAllResult freshState) :=
  ⟨by decide, findAll_pure_read freshState (by decide)⟩

/-- C10: the store is append-only across the whole public surface — after
any `create` call and after dispatching any of the five routes, the stored
list before the operation is an initial segment of the stored list after
it: nothing is ever removed, reordered or overwritten. -/
theorem store_append_only (σ : AppState) (song : Song) (r : Route)
    (hwf : WF σ) :
    (∃ t, storeContents (SongsService.create σ song).2 = storeContents σ ++ t) ∧
    (∃ t, storeContents (stepRoute σ r) = storeContents σ ++ t) := by
  refine ⟨⟨[song], storeContents_create σ song hwf⟩, ?_⟩
  cases r with
  | getAll =>
      exact ⟨[], by
        rw [List.append_nil]
        exact Heap.read_alloc_old σ.heap _ _ hwf⟩
  | post body =>
      exact ⟨[SongsController.hardcodedSong],
        storeContents_create σ SongsController.hardcodedSong hwf⟩
  | getOne id => exact ⟨[], by rw [List.append_nil]; rfl⟩
  | put id => exact ⟨[], by rw [List.append_nil]; rfl⟩
  | delete id => exact ⟨[], by rw [List.append_nil]; rfl⟩

/-- Witness for `store_append_only` at a concrete state, song and route. -/
theorem store_append_only_witness :
    WF freshState ∧
      ((∃ t, storeContents (SongsService.create freshState songA).2
          = storeContents freshState ++ t) ∧
        (∃ t, storeContents (stepRoute freshState (Route.delete "42"))
          = storeContents freshState ++ t)) :=
  ⟨by decide, store_append_only freshState songA (Route.delete "42") (by decide)⟩
